import Mathlib

/-!
Shallow embedding of the `discord_bot` repository's context store and
moderation pipeline (`src/main.rs` and `src/database/definitions.rs`).

Modelling conventions:
- The store's `VecDeque<PartialMessage>` appears at two levels.  The
  logical-contents level is a `List`, head at the front: `pop_front` is
  `tail`, `push_back m` is `· ++ [m]`; it is faithful for the insert arm,
  whose effect is independent of buffer layout.  The ring-buffer level
  (`DequeState`) additionally records the physical capacity `cap` and the
  ring head offset `head`, because the `GetLatest` and `ValidateEntries`
  arms slice `as_slices().0` — only the FIRST contiguous ring slice,
  `contents.take (cap - head)` — so their behaviour depends on the layout
  once eviction cycles have wrapped the ring.  Buffer reallocation
  (growth) is the one unmodelled transition: `pushBack` answers `none`
  when the buffer is full instead of growing it.
- Machine integers (`u64`, `i64`, `usize`, `u8`, `u16`) are `Nat`/`Int`;
  no arithmetic in the embedded code can overflow (the only subtraction,
  `max(n, len) - n`, is guarded by the `max`).
- Environment-variable reads and fallible parses are explicit `Option`
  parameters; a Rust `unwrap`/`panic!` failure site becomes an explicit
  `none`/`panicked` outcome.
-/

/-- `PartialMessage` (src/main.rs lines 100-108). -/
structure PartialMessage where
  id : Nat
  channel_id : Nat
  author_id : Nat
  content : String
  status : String
  timestamp : Int
  deriving DecidableEq

/-- `DatabaseMessage` (src/database/definitions.rs lines 53-57).  In the
source `GetLatest` carries a `u8` and `ValidateEntries` a `u64`; both are
cast to `usize` before use and modelled as `Nat`. -/
inductive DatabaseMessage where
  | GetLatest : Nat → DatabaseMessage
  | InsertMessage : PartialMessage → DatabaseMessage
  | ValidateEntries : Nat → DatabaseMessage
  deriving DecidableEq

/-- The `InsertMessage` arm of `Database::update`
(src/database/definitions.rs lines 30-37): if `len >= context_size` then
`pop_front`, then `push_back message`. -/
def insertMessage (context_size : Nat) (messages : List PartialMessage)
    (message : PartialMessage) : List PartialMessage :=
  (if context_size ≤ messages.length then messages.tail else messages) ++ [message]

/-- The window start index shared by the `GetLatest` and `ValidateEntries`
arms (src/database/definitions.rs lines 39 and 44):
`std::cmp::max(n_latest, messages.len()) - n_latest`. -/
def windowStart (n_latest len : Nat) : Nat :=
  max n_latest len - n_latest

/-- The `GetLatest` arm (src/database/definitions.rs lines 38-42)
restricted to a contiguous deque, where `as_slices().0` is the whole
stored sequence and the slice `[start..]` is its suffix.  The faithful
general-layout arm is `getLatestRing`; this contiguous special case is
used only to compose the handler (`handlerMessage`). -/
def getLatest (n_latest : Nat) (messages : List PartialMessage) : List PartialMessage :=
  messages.drop (windowStart n_latest messages.length)

/-- The in-place mutation `x.status = "validated".into()`
(src/database/definitions.rs line 46). -/
def markValidated (x : PartialMessage) : PartialMessage :=
  { x with status := "validated" }

/-- The `ValidateEntries` arm (src/database/definitions.rs lines 43-47)
restricted to a contiguous deque, where `as_mut_slices().0` is the whole
stored sequence.  The faithful general-layout arm is
`validateEntriesRing`; this contiguous special case is kept only because
`update` feeds `handlerMessage`. -/
def validateEntries (n_latest : Nat) (messages : List PartialMessage) : List PartialMessage :=
  messages.take (windowStart n_latest messages.length)
    ++ (messages.drop (windowStart n_latest messages.length)).map markValidated

/-- One iteration of the worker loop `Database::update`
(src/database/definitions.rs lines 27-50) on a contiguous deque: the new
store state and the reply sent on the message channel, if any.
`context_size` is the parsed `CONTEXT_SIZE` configuration read by the
insert arm. -/
def update (context_size : Nat) (messages : List PartialMessage)
    (req : DatabaseMessage) : List PartialMessage × Option (List PartialMessage) :=
  match req with
  | .GetLatest n => (messages, some (getLatest n messages))
  | .InsertMessage m => (insertMessage context_size messages m, none)
  | .ValidateEntries n => (validateEntries n messages, none)

/-- The `VecDeque<PartialMessage>` with its ring-buffer layout: `cap` is
the physical capacity of the allocation, `head` the physical index of the
logical front, and `contents` the logical contents in order (the record at
logical index `i` sits at physical index `(head + i) % cap`).
`as_slices().0`, the first contiguous slice, is therefore
`contents.take (cap - head)`, and `as_slices().1` is the rest. -/
structure DequeState where
  cap : Nat
  head : Nat
  contents : List PartialMessage
  deriving DecidableEq

/-- `as_slices().0` / `as_mut_slices().0`: the first contiguous ring
slice, the physical cells from `head` up to the end of the buffer. -/
def firstSlice (d : DequeState) : List PartialMessage :=
  d.contents.take (d.cap - d.head)

/-- `as_slices().1`: the wrapped-around rest of the contents. -/
def secondSlice (d : DequeState) : List PartialMessage :=
  d.contents.drop (d.cap - d.head)

/-- `VecDeque::pop_front`: on a non-empty deque the head cell is freed and
the head offset advances by one around the ring; on an empty deque it
returns `None` and changes nothing. -/
def popFront (d : DequeState) : DequeState :=
  match d.contents with
  | [] => d
  | _ :: rest => ⟨d.cap, (d.head + 1) % d.cap, rest⟩

/-- `VecDeque::push_back`: appends into the next free cell when the buffer
has room.  A full buffer would reallocate (grow); reallocation is not
modelled, so that case is `none`.  The states used below never push into a
full buffer. -/
def pushBack (d : DequeState) (r : PartialMessage) : Option DequeState :=
  if d.contents.length < d.cap then some ⟨d.cap, d.head, d.contents ++ [r]⟩ else none

/-- The `InsertMessage` arm of `Database::update`
(src/database/definitions.rs lines 30-37) at the ring-buffer level: if
`len >= context_size` then `pop_front`, then `push_back message`. -/
def insertRing (context_size : Nat) (d : DequeState)
    (message : PartialMessage) : Option DequeState :=
  if context_size ≤ d.contents.length then pushBack (popFront d) message
  else pushBack d message

/-- The `GetLatest` arm (src/database/definitions.rs lines 38-42) at the
ring-buffer level: `start = max(n_latest, len) - n_latest` is computed
from the full logical length, but the slice taken is
`as_slices().0[start..]` — a suffix of the FIRST ring slice only.  The
index panics (`none`) when `start` exceeds that slice's length. -/
def getLatestRing (n_latest : Nat) (d : DequeState) : Option (List PartialMessage) :=
  if windowStart n_latest d.contents.length ≤ (firstSlice d).length then
    some ((firstSlice d).drop (windowStart n_latest d.contents.length))
  else none

/-- The `ValidateEntries` arm (src/database/definitions.rs lines 43-47) at
the ring-buffer level: the mutated slice is
`as_mut_slices().0[start..]` — a suffix of the FIRST ring slice — while
the wrapped-around second slice is untouched.  The index panics (`none`)
when `start` exceeds the first slice's length. -/
def validateEntriesRing (n_latest : Nat) (d : DequeState) : Option DequeState :=
  if windowStart n_latest d.contents.length ≤ (firstSlice d).length then
    some ⟨d.cap, d.head,
      (firstSlice d).take (windowStart n_latest d.contents.length)
        ++ ((firstSlice d).drop (windowStart n_latest d.contents.length)).map markValidated
        ++ secondSlice d⟩
  else none

/-- The store state after a sequence of `InsertMessage` requests applied in
order to the initially empty store. -/
def insertAll (context_size : Nat) (records : List PartialMessage) : List PartialMessage :=
  records.foldl (insertMessage context_size) []

/-- `PartialEq::eq` for `PartialMessage` (src/main.rs lines 137-139):
equality solely by `channel_id` and `id`. -/
def pmEq (a b : PartialMessage) : Bool :=
  a.channel_id == b.channel_id && a.id == b.id

/-- `PartialEq::ne` for `PartialMessage` (src/main.rs lines 140-142). -/
def pmNe (a b : PartialMessage) : Bool :=
  a.channel_id != b.channel_id || a.id != b.id

/-- `PartialOrd::ge` (src/main.rs lines 146-148). -/
def pmGe (a b : PartialMessage) : Bool :=
  decide (b.timestamp ≤ a.timestamp)

/-- `PartialOrd::gt` (src/main.rs lines 149-151). -/
def pmGt (a b : PartialMessage) : Bool :=
  decide (b.timestamp < a.timestamp)

/-- `PartialOrd::le` (src/main.rs lines 152-154). -/
def pmLe (a b : PartialMessage) : Bool :=
  decide (a.timestamp ≤ b.timestamp)

/-- `PartialOrd::lt` (src/main.rs lines 155-157). -/
def pmLt (a b : PartialMessage) : Bool :=
  decide (a.timestamp < b.timestamp)

/-- `PartialOrd::partial_cmp` (src/main.rs lines 158-166): comparison of
the `timestamp` fields with natural polarity, wrapped in `Some`. -/
def pmPartialCmp (a b : PartialMessage) : Option Ordering :=
  some (if a.timestamp = b.timestamp then Ordering.eq
    else if a.timestamp < b.timestamp then Ordering.lt
    else Ordering.gt)

/-- `Ord::cmp` (src/main.rs lines 170-178): comparison of the `timestamp`
fields with reversed polarity (smaller timestamp compares as greater). -/
def pmCmp (a b : PartialMessage) : Ordering :=
  if a.timestamp = b.timestamp then Ordering.eq
  else if a.timestamp < b.timestamp then Ordering.gt
  else Ordering.lt

/-- The classifier verdict `Validation` (src/main.rs lines 10-14). -/
structure Validation where
  user_id : Option Nat
  reason : Option String
  deriving DecidableEq

/-- `AIMessage` (src/main.rs lines 27-31). -/
structure AIMessage where
  content : Option String
  role : String
  deriving DecidableEq

/-- `Choice` (src/main.rs lines 85-89). -/
structure Choice where
  index : Nat
  message : AIMessage
  deriving DecidableEq

/-- `AIResponse` (src/main.rs lines 91-98); the handler only reads
`choices`. -/
structure AIResponse where
  choices : List Choice
  created : Int
  id : String
  model : String
  object : String
  deriving DecidableEq

/-- The classifier's HTTP reply as the handler observes it: its status
code (`u16`, modelled as `Nat`) and its body parsed as `AIResponse`
(`response.json::<AIResponse>()`, `none` when that parse fails). -/
structure ClassifierReply where
  status : Nat
  body : Option AIResponse
  deriving DecidableEq

/-- The observable result of one `Handler::ai_request` run: the handler
either returns normally, having sent `sent` to the store, or panics. -/
inductive AiOutcome where
  | returned : Option DatabaseMessage → AiOutcome
  | panicked : AiOutcome
  deriving DecidableEq

/-- The store request an `ai_request` run actually delivered (a panicking
run delivers nothing). -/
def AiOutcome.sent : AiOutcome → Option DatabaseMessage
  | .returned o => o
  | .panicked => none

/-- `Handler::ai_request` (src/main.rs lines 218-251), as a function of its
environment.  `env` is the process environment: `FIREWORKS_API_KEY` and
`SYSTEM_PROMPT` are read and `unwrap`ped at lines 220-221 and `MODEL` by
`FireworksPayload::default()` at line 70, so a missing one panics before
the request is sent.  `fromStr` is `serde_json::from_str::<Validation>`
(line 242, `none` = parse failure).  `transport` is the transport-level
result of the HTTP send, `none` for `Err`.  Control flow of the body:
`messages[0].channel_id` (line 219) panics on an empty window; an `Err`
transport result falls through the `if let Ok` with nothing done (line
235); a non-200 status is `panic!` (lines 236-238); `.json().unwrap()`
(line 239), `choices[0]` (line 240), `content.clone().unwrap()` (line 241)
and the verdict parse `unwrap` (line 242) panic on failure; a present
`reason` sends `ValidateEntries(channel_id)` (lines 243-245), an absent
one sends nothing (lines 247-249). -/
def ai_request (env : String → Option String)
    (fromStr : String → Option Validation)
    (messages : List PartialMessage)
    (transport : Option ClassifierReply) : AiOutcome :=
  match messages.head? with
  | none => .panicked
  | some first =>
    match env "FIREWORKS_API_KEY", env "SYSTEM_PROMPT", env "MODEL" with
    | some _, some _, some _ =>
      (match transport with
      | none => .returned none
      | some reply =>
        if reply.status = 200 then
          match reply.body with
          | none => .panicked
          | some body =>
            match body.choices.head? with
            | none => .panicked
            | some choice =>
              match choice.message.content with
              | none => .panicked
              | some content =>
                match fromStr content with
                | none => .panicked
                | some validation =>
                  match validation.reason with
                  | some _ => .returned (some (.ValidateEntries first.channel_id))
                  | none => .returned none
        else .panicked)
    | _, _, _ => .panicked

/-- A decoded platform message event, restricted to the fields read by
`From<Message> for PartialMessage` and `Handler::message`
(src/main.rs lines 110-121 and 268-279). -/
structure IncomingMessage where
  id : Nat
  channel_id : Nat
  author_id : Nat
  content : String
  timestamp : Int
  deriving DecidableEq

/-- `From<Message> for PartialMessage` (src/main.rs lines 110-121): the
snapshot starts with `status = "not_validated"`. -/
def PartialMessage.fromMessage (m : IncomingMessage) : PartialMessage :=
  ⟨m.id, m.channel_id, m.author_id, m.content, "not_validated", m.timestamp⟩

/-- The observable result of one `Handler::message` run: the final store
state, the requests delivered to the store, and whether `ai_request` was
invoked. -/
structure HandlerRun where
  store : List PartialMessage
  sentToStore : List DatabaseMessage
  aiRequested : Bool
  deriving DecidableEq

/-- `Handler::message` (src/main.rs lines 268-279) composed with the store
worker processing each request in send order: if the author id equals the
configured application id `self.id` (line 269), return at once; otherwise
send `InsertMessage`, then `GetLatest(20)`, receive the window reply, and
run `ai_request` on it; a `ValidateEntries` request sent by `ai_request`
is then processed by the worker as well. -/
def handlerMessage (selfId context_size : Nat) (store0 : List PartialMessage)
    (msg : IncomingMessage) (env : String → Option String)
    (fromStr : String → Option Validation)
    (transport : Option ClassifierReply) : HandlerRun :=
  if msg.author_id = selfId then ⟨store0, [], false⟩
  else
    let pm := PartialMessage.fromMessage msg
    let s1 := (update context_size store0 (.InsertMessage pm)).1
    match (ai_request env fromStr (getLatest 20 s1) transport).sent with
    | none => ⟨s1, [.InsertMessage pm, .GetLatest 20], true⟩
    | some req => ⟨(update context_size s1 req).1,
        [.InsertMessage pm, .GetLatest 20, req], true⟩

/-- In `Nat`, the guarded window start equals plain truncated subtraction. -/
theorem windowStart_eq (n len : Nat) : windowStart n len = len - n := by
  unfold windowStart
  rcases Nat.le_total n len with h | h
  · rw [Nat.max_eq_right h]
  · rw [Nat.max_eq_left h]
    omega

/-- The window start never exceeds the stored length. -/
theorem windowStart_le (n len : Nat) : windowStart n len ≤ len := by
  rw [windowStart_eq]
  omega

/-- Concrete records used by witnesses. -/
def wMsg1 : PartialMessage :=
  ⟨1, 10, 100, "first message", "not_validated", 5⟩

/-- A second concrete record used by witnesses. -/
def wMsg2 : PartialMessage :=
  ⟨2, 10, 101, "second message", "not_validated", 6⟩

/-- A single insert keeps the store length within the capacity bound, for a
positive capacity. -/
theorem insertMessage_length_le (context_size : Nat) (h : 1 ≤ context_size)
    (s : List PartialMessage) (r : PartialMessage)
    (hs : s.length ≤ context_size) :
    (insertMessage context_size s r).length ≤ context_size := by
  rw [insertMessage]
  by_cases hc : context_size ≤ s.length
  · rw [if_pos hc]
    cases s with
    | nil => simp at hc; omega
    | cons a t => simp at hs ⊢; omega
  · rw [if_neg hc]
    simp
    omega

/-- Folding inserts over any in-bound state keeps exactly the last
`context_size` records of the combined sequence, for positive capacity. -/
theorem foldl_insertMessage (context_size : Nat) (h : 1 ≤ context_size) :
    ∀ (records s : List PartialMessage), s.length ≤ context_size →
    List.foldl (insertMessage context_size) s records
      = (s ++ records).drop ((s ++ records).length - context_size) := by
  intro records
  induction records with
  | nil =>
    intro s hs
    simp [Nat.sub_eq_zero_of_le hs]
  | cons r rs ih =>
    intro s hs
    rw [List.foldl_cons, ih (insertMessage context_size s r)
      (insertMessage_length_le context_size h s r hs)]
    by_cases hc : context_size ≤ s.length
    · have hsc : s.length = context_size := by omega
      cases s with
      | nil => simp at hsc; omega
      | cons a t =>
        have hone : insertMessage context_size (a :: t) r = (t ++ [r]) := by
          rw [insertMessage, if_pos hc]
          rfl
        rw [hone]
        have ht : t.length + 1 = context_size := by
          simpa using hsc
        have h1 : ((t ++ [r]) ++ rs).length - context_size = rs.length := by
          simp
          omega
        have h2 : ((a :: t) ++ r :: rs).length - context_size = rs.length + 1 := by
          simp
          omega
        rw [h1, h2]
        have h3 : (t ++ [r]) ++ rs = t ++ r :: rs := by simp
        have h4 : (a :: t) ++ r :: rs = a :: (t ++ r :: rs) := rfl
        rw [h3, h4, List.drop_succ_cons]
    · have hone : insertMessage context_size s r = s ++ [r] := by
        rw [insertMessage, if_neg hc]
      rw [hone]
      have h3 : (s ++ [r]) ++ rs = s ++ r :: rs := by simp
      rw [h3]

/-- C5 counterexample: with capacity bound `C = 0` a single insert leaves
the store holding one record, exceeding the bound. -/
theorem insertAll_capacity_zero_cex :
    (insertAll 0 [wMsg1]).length = 1 ∧ ¬ (insertAll 0 [wMsg1]).length ≤ 0 := by
  constructor
  · rfl
  · decide

/-- C5 (amended): for every capacity bound `C ≥ 1` and every insert
sequence applied to the empty store, the store never holds more than `C`
records, the retained records are exactly the `C` most recently inserted
ones in insertion order, and each single insert evicts at most one record
(the head). -/
theorem insertAll_bounded_fifo (context_size : Nat) (h : 1 ≤ context_size)
    (records : List PartialMessage) :
    (insertAll context_size records).length ≤ context_size ∧
    insertAll context_size records
      = records.drop (records.length - context_size) ∧
    ∀ (s : List PartialMessage) (r : PartialMessage),
      insertMessage context_size s r = s ++ [r] ∨
      insertMessage context_size s r = s.tail ++ [r] := by
  have hall : insertAll context_size records
      = records.drop (records.length - context_size) := by
    rw [insertAll, foldl_insertMessage context_size h records [] (by simp)]
    simp
  refine ⟨?_, hall, ?_⟩
  · rw [hall, List.length_drop]
    omega
  · intro s r
    rw [insertMessage]
    by_cases hc : context_size ≤ s.length
    · right
      rw [if_pos hc]
    · left
      rw [if_neg hc]

/-- Witness for C5 (amended) at capacity 1 with two inserts. -/
theorem insertAll_bounded_fifo_witness :
    (insertAll 1 [wMsg1, wMsg2]).length ≤ 1 ∧
    insertAll 1 [wMsg1, wMsg2] = [wMsg2] := by
  have h := insertAll_bounded_fifo 1 (by decide) [wMsg1, wMsg2]
  exact ⟨h.1, by rw [h.2.1]; rfl⟩

/-- A record with the larger timestamp, for comparison tests. -/
def cmpA : PartialMessage := ⟨1, 5, 9, "newer", "not_validated", 2⟩

/-- A record with the smaller timestamp, for comparison tests. -/
def cmpB : PartialMessage := ⟨2, 5, 9, "older", "not_validated", 1⟩

/-- C8 counterexample: for records with `cmpA.timestamp > cmpB.timestamp`,
`lt` does not hold (`cmpA` does not compare as less than `cmpB`) and
`partial_cmp` answers `Greater`, so the reverse polarity claimed for all
comparison operators fails for `lt` and `partial_cmp`. -/
theorem pm_reverse_polarity_cex :
    cmpB.timestamp < cmpA.timestamp ∧
    pmLt cmpA cmpB = false ∧
    pmPartialCmp cmpA cmpB = some Ordering.gt := by
  decide

/-- C8 (amended): equality is solely by `(channel_id, id)` and `ne` is its
negation; `cmp` compares timestamps with reverse polarity (a larger
timestamp compares as less); `partial_cmp`, `lt`, `le`, `gt` and `ge`
compare timestamps with natural polarity. -/
theorem pm_compare_spec (a b : PartialMessage) :
    (pmEq a b = true ↔ a.channel_id = b.channel_id ∧ a.id = b.id) ∧
    (pmNe a b = true ↔ ¬ (a.channel_id = b.channel_id ∧ a.id = b.id)) ∧
    (b.timestamp < a.timestamp → pmCmp a b = Ordering.lt) ∧
    (a.timestamp < b.timestamp → pmCmp a b = Ordering.gt) ∧
    (a.timestamp = b.timestamp → pmCmp a b = Ordering.eq) ∧
    (b.timestamp < a.timestamp → pmPartialCmp a b = some Ordering.gt) ∧
    (a.timestamp < b.timestamp → pmPartialCmp a b = some Ordering.lt) ∧
    (a.timestamp = b.timestamp → pmPartialCmp a b = some Ordering.eq) ∧
    (pmLt a b = decide (a.timestamp < b.timestamp)) ∧
    (pmLe a b = decide (a.timestamp ≤ b.timestamp)) ∧
    (pmGt a b = decide (b.timestamp < a.timestamp)) ∧
    (pmGe a b = decide (b.timestamp ≤ a.timestamp)) := by
  refine ⟨?_, ?_, ?_, ?_, ?_, ?_, ?_, ?_, rfl, rfl, rfl, rfl⟩
  · simp [pmEq]
  · simp [pmNe]
    tauto
  · intro h
    rw [pmCmp, if_neg (by omega), if_neg (by omega)]
  · intro h
    rw [pmCmp, if_neg (by omega), if_pos h]
  · intro h
    rw [pmCmp, if_pos h]
  · intro h
    rw [pmPartialCmp]
    rw [if_neg (by omega), if_neg (by omega)]
  · intro h
    rw [pmPartialCmp]
    rw [if_neg (by omega), if_pos h]
  · intro h
    rw [pmPartialCmp]
    rw [if_pos h]

/-- Witness for C8 (amended): on `cmpA`, `cmpB` the reversed `cmp` answers
`Less` while `partial_cmp` answers `Greater`. -/
theorem pm_compare_spec_witness :
    pmCmp cmpA cmpB = Ordering.lt ∧ pmPartialCmp cmpA cmpB = some Ordering.gt := by
  have h := pm_compare_spec cmpA cmpB
  exact ⟨h.2.2.1 (by decide), h.2.2.2.2.2.1 (by decide)⟩

/-- A concrete incoming platform message authored by application id 777. -/
def cIncoming : IncomingMessage := ⟨9, 42, 777, "hello there", 50⟩

/-- C10: a message whose author id equals the configured application id is
skipped at once: no store request is sent, `ai_request` is not invoked,
and the store is unchanged. -/
theorem handlerMessage_self_skip (selfId context_size : Nat)
    (store0 : List PartialMessage) (msg : IncomingMessage)
    (env : String → Option String) (fromStr : String → Option Validation)
    (transport : Option ClassifierReply)
    (h : msg.author_id = selfId) :
    handlerMessage selfId context_size store0 msg env fromStr transport
      = ⟨store0, [], false⟩ := by
  rw [handlerMessage, if_pos h]

/-- Witness for C10 at a concrete store, message and environment. -/
theorem handlerMessage_self_skip_witness :
    handlerMessage 777 3 [wMsg1] cIncoming (fun _ => some "set")
      (fun _ => none) none = ⟨[wMsg1], [], false⟩ :=
  handlerMessage_self_skip 777 3 [wMsg1] cIncoming (fun _ => some "set")
    (fun _ => none) none rfl

/-- A concrete stored record in channel 42. -/
def cMsg : PartialMessage := ⟨1, 42, 7, "hello", "not_validated", 100⟩

/-- A concrete environment with every configuration variable set. -/
def cEnv : String → Option String := fun _ => some "setting"

/-- A concrete 200 reply whose single choice carries a verdict body. -/
def cReplyOk : ClassifierReply :=
  ⟨200, some ⟨[⟨0, ⟨some "verdict body", "assistant"⟩⟩], 0, "resp-id",
    "model-id", "chat.completion"⟩⟩

/-- A verdict parse producing a violation (`reason` present). -/
def cParseViolation : String → Option Validation :=
  fun _ => some ⟨some 7, some "offensive content"⟩

/-- A verdict parse producing no violation (`reason` absent). -/
def cParseClean : String → Option Validation :=
  fun _ => some ⟨none, none⟩

/-- C1: on a verdict whose `reason` is present the handler sends
`ValidateEntries(channel_id)` — here channel 42 — and not
`ValidateEntries(20)` as specified; on a verdict whose `reason` is absent
it sends nothing. -/
theorem ai_request_sends_channel_id :
    ai_request cEnv cParseViolation [cMsg] (some cReplyOk)
      = AiOutcome.returned (some (DatabaseMessage.ValidateEntries 42)) ∧
    DatabaseMessage.ValidateEntries 42 ≠ DatabaseMessage.ValidateEntries 20 ∧
    ai_request cEnv cParseClean [cMsg] (some cReplyOk)
      = AiOutcome.returned none := by
  refine ⟨rfl, by decide, rfl⟩

/-- C7 counterexample: a transport failure is not fatal — the handler
falls through the `if let Ok` and returns normally, sending nothing. -/
theorem ai_request_transport_failure_cex :
    ai_request cEnv cParseViolation [cMsg] none = AiOutcome.returned none ∧
    AiOutcome.returned none ≠ AiOutcome.panicked := by
  exact ⟨rfl, by decide⟩

/-- C7 (amended): a non-success classifier status and every malformed
verdict body are fatal (the handler panics); a transport failure is
silently ignored (the handler returns normally); in all of these failure
cases no store request is sent, so the store's status fields are left
exactly as they were. -/
theorem ai_request_failure_handling (env : String → Option String)
    (fromStr : String → Option Validation) (messages : List PartialMessage)
    (hmsg : messages ≠ [])
    (k p m : String)
    (hk : env "FIREWORKS_API_KEY" = some k)
    (hp : env "SYSTEM_PROMPT" = some p)
    (hm : env "MODEL" = some m) :
    (ai_request env fromStr messages none = AiOutcome.returned none ∧
      (ai_request env fromStr messages none).sent = none) ∧
    (∀ (st : Nat) (body : Option AIResponse), st ≠ 200 →
      ai_request env fromStr messages (some ⟨st, body⟩) = AiOutcome.panicked) ∧
    (ai_request env fromStr messages (some ⟨200, none⟩) = AiOutcome.panicked) ∧
    (∀ resp : AIResponse, resp.choices = [] →
      ai_request env fromStr messages (some ⟨200, some resp⟩)
        = AiOutcome.panicked) ∧
    (∀ (resp : AIResponse) (choice : Choice) (rest : List Choice),
      resp.choices = choice :: rest → choice.message.content = none →
      ai_request env fromStr messages (some ⟨200, some resp⟩)
        = AiOutcome.panicked) ∧
    (∀ (resp : AIResponse) (choice : Choice) (rest : List Choice) (c : String),
      resp.choices = choice :: rest → choice.message.content = some c →
      fromStr c = none →
      ai_request env fromStr messages (some ⟨200, some resp⟩)
        = AiOutcome.panicked) ∧
    AiOutcome.panicked.sent = none := by
  cases messages with
  | nil => exact absurd rfl hmsg
  | cons a t =>
    refine ⟨?_, ?_, ?_, ?_, ?_, ?_, rfl⟩
    · constructor <;> simp [ai_request, hk, hp, hm, AiOutcome.sent]
    · intro st body hst
      simp [ai_request, hk, hp, hm, hst]
    · simp [ai_request, hk, hp, hm]
    · intro resp hc
      simp [ai_request, hk, hp, hm, hc]
    · intro resp choice rest hc hcon
      simp [ai_request, hk, hp, hm, hc, hcon]
    · intro resp choice rest c hc hcon hf
      simp [ai_request, hk, hp, hm, hc, hcon, hf]

/-- Witness for C7 (amended) at a concrete environment and window. -/
theorem ai_request_failure_handling_witness :
    ai_request cEnv cParseViolation [cMsg] none = AiOutcome.returned none :=
  (ai_request_failure_handling cEnv cParseViolation [cMsg]
    (List.cons_ne_nil _ _) "setting" "setting" "setting" rfl rfl rfl).1.1

/-- First of five records driven through the capacity-3 store. -/
def rMsg1 : PartialMessage := ⟨1, 10, 100, "m1", "not_validated", 11⟩

/-- Second record. -/
def rMsg2 : PartialMessage := ⟨2, 10, 101, "m2", "not_validated", 12⟩

/-- Third record. -/
def rMsg3 : PartialMessage := ⟨3, 10, 102, "m3", "not_validated", 13⟩

/-- Fourth record. -/
def rMsg4 : PartialMessage := ⟨4, 10, 103, "m4", "not_validated", 14⟩

/-- Fifth record; after it is inserted the ring has wrapped. -/
def rMsg5 : PartialMessage := ⟨5, 10, 104, "m5", "not_validated", 15⟩

/-- The store after five inserts at `CONTEXT_SIZE = 3` into a 4-slot
buffer (the standard `VecDeque`'s first allocation for this element size):
two eviction cycles have advanced the ring head to 2, so the contents
`[rMsg3, rMsg4, rMsg5]` wrap — `as_slices().0 = [rMsg3, rMsg4]` and
`as_slices().1 = [rMsg5]`. -/
def wrappedStore : DequeState := ⟨4, 2, [rMsg3, rMsg4, rMsg5]⟩

/-- C2: the worker does panic on a valid request.  With `CONTEXT_SIZE = 3`
(present and parsing), five inserts into the fresh 4-slot buffer reach the
wrapped store, and `GetLatest(0)` there computes
`start = max(0, 3) - 0 = 3` and indexes `as_slices().0[3..]` on the
2-element first slice, which panics. -/
theorem getLatest_wrapped_panics :
    List.foldlM (insertRing 3) (⟨4, 0, []⟩ : DequeState)
      [rMsg1, rMsg2, rMsg3, rMsg4, rMsg5] = some wrappedStore ∧
    getLatestRing 0 wrappedStore = none := by
  decide

/-- C3: on the wrapped store `GetLatest` does not return the claimed
window: `GetLatest(1)` returns `[]` instead of the last record `[rMsg5]`,
and `GetLatest(20)` returns the first ring slice `[rMsg3, rMsg4]` instead
of the entire stored sequence `[rMsg3, rMsg4, rMsg5]`. -/
theorem getLatest_wrapped_wrong_window :
    getLatestRing 1 wrappedStore = some [] ∧
    getLatestRing 20 wrappedStore = some [rMsg3, rMsg4] ∧
    wrappedStore.contents = [rMsg3, rMsg4, rMsg5] ∧
    ([] : List PartialMessage) ≠ [rMsg5] ∧
    [rMsg3, rMsg4] ≠ [rMsg3, rMsg4, rMsg5] := by
  decide

/-- C4: read-after-write fails on the code.  At `CONTEXT_SIZE = 3`,
inserting `rMsg5` into the store `⟨cap 4, head 1, [rMsg2, rMsg3, rMsg4]⟩`
wraps the ring — the new record lands in the second slice — and the
immediately following `GetLatest(20)` replies `[rMsg3, rMsg4]`, which does
not contain the just-inserted `rMsg5`. -/
theorem insertRing_getLatest_misses_record :
    insertRing 3 (⟨4, 1, [rMsg2, rMsg3, rMsg4]⟩ : DequeState) rMsg5
      = some wrappedStore ∧
    getLatestRing 20 wrappedStore = some [rMsg3, rMsg4] ∧
    rMsg5 ∉ [rMsg3, rMsg4] := by
  decide

/-- C6: on the wrapped store `ValidateEntries(1)` marks nothing at all —
the mutated slice `as_mut_slices().0[2..]` is the empty suffix of the
first ring slice, so the store is returned unchanged and the last record
`rMsg5` keeps status `"not_validated"`; and `ValidateEntries(0)` panics on
the same slice index. -/
theorem validateEntries_wrapped_wrong_scope :
    validateEntriesRing 1 wrappedStore = some wrappedStore ∧
    wrappedStore.contents.getLast? = some rMsg5 ∧
    rMsg5.status = "not_validated" ∧
    ("not_validated" : String) ≠ "validated" ∧
    validateEntriesRing 0 wrappedStore = none := by
  decide

/-- Marking an already marked window again changes nothing. -/
theorem markValidated_map_idem (l : List PartialMessage) :
    (l.map markValidated).map markValidated = l.map markValidated := by
  induction l with
  | nil => rfl
  | cons x xs ih =>
    show markValidated (markValidated x) :: (xs.map markValidated).map markValidated
      = markValidated x :: xs.map markValidated
    rw [ih]
    rfl

/-- Taking and dropping at the physical slice boundary recovers the two
slices, whenever the boundary falls at the end of the first part or the
second part is empty. -/
theorem append_take_drop_boundary (X S : List PartialMessage) (k : Nat)
    (hX : X.length ≤ k) (h0 : k - X.length = 0 ∨ S = []) :
    (X ++ S).take k = X ∧ (X ++ S).drop k = S := by
  constructor
  · rw [List.take_append_eq_append_take, List.take_of_length_le hX]
    rcases h0 with h | h
    · rw [h, List.take_zero, List.append_nil]
    · rw [h]
      simp
  · rw [List.drop_append_eq_append_drop, List.drop_of_length_le hX]
    rcases h0 with h | h
    · rw [h, List.drop_zero, List.nil_append]
    · rw [h]
      simp

/-- C9: applying `ValidateEntries(n)` twice with the same `n` behaves as
one application, at the faithful ring-buffer level: a successful first
call leaves a state on which the second call succeeds and changes nothing,
and a panicking first call panics identically with no mutation. -/
theorem validateEntriesRing_idempotent (n : Nat) (d : DequeState) :
    (validateEntriesRing n d).bind (validateEntriesRing n) = validateEntriesRing n d := by
  by_cases hg : windowStart n d.contents.length ≤ (firstSlice d).length
  · obtain ⟨A, hA⟩ : ∃ A, (firstSlice d).take (windowStart n d.contents.length) = A :=
      ⟨_, rfl⟩
    obtain ⟨B, hB⟩ : ∃ B,
        ((firstSlice d).drop (windowStart n d.contents.length)).map markValidated = B :=
      ⟨_, rfl⟩
    obtain ⟨S, hS⟩ : ∃ S, secondSlice d = S := ⟨_, rfl⟩
    have hAlen : A.length = windowStart n d.contents.length := by
      rw [← hA]
      exact List.length_take_of_le hg
    have hBlen : B.length = (firstSlice d).length - windowStart n d.contents.length := by
      rw [← hB]
      simp
    have hABlen : (A ++ B).length = (firstSlice d).length := by
      rw [List.length_append, hAlen, hBlen]
      omega
    have hF_le : (firstSlice d).length ≤ d.cap - d.head := by
      simp only [firstSlice]
      exact List.length_take_le _ _
    have hFS : (firstSlice d).length + S.length = d.contents.length := by
      rw [← hS]
      have h1 := congrArg List.length (List.take_append_drop (d.cap - d.head) d.contents)
      simp only [List.length_append] at h1
      simpa only [firstSlice, secondSlice] using h1
    have hstep : validateEntriesRing n d = some ⟨d.cap, d.head, (A ++ B) ++ S⟩ := by
      unfold validateEntriesRing
      rw [if_pos hg, hA, hB, hS, List.append_assoc]
    rw [hstep, Option.some_bind]
    have h0 : (d.cap - d.head) - (A ++ B).length = 0 ∨ S = [] := by
      rcases le_or_lt (d.cap - d.head) d.contents.length with hc | hc
      · left
        have hFlen : (firstSlice d).length = d.cap - d.head := by
          simp only [firstSlice]
          exact List.length_take_of_le hc
        omega
      · right
        have hSlen : S.length = 0 := by
          rw [← hS]
          simp only [secondSlice, List.length_drop]
          omega
        exact List.eq_nil_of_length_eq_zero hSlen
    obtain ⟨hfst, hsnd⟩ := append_take_drop_boundary (A ++ B) S (d.cap - d.head)
      (by rw [hABlen]; exact hF_le) h0
    have hlen2 : ((A ++ B) ++ S).length = d.contents.length := by
      rw [List.length_append]
      omega
    have hfs2 : firstSlice ⟨d.cap, d.head, (A ++ B) ++ S⟩ = A ++ B := by
      simp only [firstSlice]
      exact hfst
    have hss2 : secondSlice ⟨d.cap, d.head, (A ++ B) ++ S⟩ = S := by
      simp only [secondSlice]
      exact hsnd
    unfold validateEntriesRing
    dsimp only
    rw [hfs2, hss2, hlen2, if_pos (by rw [hABlen]; exact hg),
      List.take_left' hAlen, List.drop_left' hAlen, ← hB, markValidated_map_idem,
      List.append_assoc]
  · have hnone : validateEntriesRing n d = none := by
      unfold validateEntriesRing
      rw [if_neg hg]
    rw [hnone]
    rfl
